import Mathlib

/-!
Verification development for the covid19_npis probabilistic model
(files `covid19_npis/model/likelihood.py`, `covid19_npis/model/model.py`,
`covid19_npis/model/weekly_modulation.py`, `covid19_npis/modelParams.py`).

Tensors over the (time, country, age_group) axes are embedded as functions
on `Fin T × Fin C × Fin A`; a float tensor that may contain NaN entries is
embedded as an `Option`-valued function with `none` standing for NaN.
Real-valued tensor arithmetic is embedded over `ℝ`; `tf.sqrt` enters the
likelihood definitions as an explicit function argument so that the
definitions stay executable, and every theorem about the likelihood
instantiates it with `Real.sqrt`. Exact bookkeeping (clipping bounds,
contact-matrix algebra, weekly modulation, config dictionaries) is embedded
over `ℚ` and decidable structures.
-/

set_option autoImplicit false

namespace Covid19Npis

/-! ## Tensor index sets and `tf.boolean_mask` -/

/-- Index of a (time, country, age_group) tensor entry. -/
abbrev Idx (T C A : ℕ) := Fin T × Fin C × Fin A

/-- All indices of a (time, country, age_group) tensor in row-major order,
matching the flattening order used by `tf.boolean_mask`. -/
def allIdx (T C A : ℕ) : List (Idx T C A) :=
  (List.finRange T).flatMap fun t =>
    (List.finRange C).flatMap fun c =>
      (List.finRange A).map fun a => (t, c, a)

/-- Embedding of `tf.boolean_mask(x, m)`: the entries of `x` whose mask bit is
set, in row-major order. -/
def boolean_mask {T C A : ℕ} {α : Type} (x : Idx T C A → α) (m : Idx T C A → Bool) :
    List α :=
  ((allIdx T C A).filter m).map x

/-! ## The Student-t likelihood (`likelihood.py`, `studentT_likelihood`) -/

/-- One observed factor of the `pm.StudentT` likelihood: degrees of freedom,
location, scale and the observed data value it is evaluated at. -/
structure StudentTTerm where
  df : ℝ
  loc : ℝ
  scale : ℝ
  observed : ℝ

/-- Entry of the scale tensor built on line 47 of `likelihood.py`:
`sigma * tf.sqrt(new_cases) + 1`, for the (broadcast) per-country sigma and
the expected-cases entry. `sqrt` is the square-root function of the tensor
framework, instantiated with `Real.sqrt` in the theorems below. -/
def scaleEntry (sqrt : ℝ → ℝ) (s E : ℝ) : ℝ := s * sqrt E + 1

/-- Embedding of the body of `studentT_likelihood` (likelihood.py lines
14-53). `data` is `modelParams.data_tensor` with `none` for NaN entries,
`new_cases` the expected-cases tensor, and `sigma` the per-country scale
drawn on lines 17-24 (broadcast over time and age groups on lines 26-29,
embedded as dependence on the country coordinate only). The mask is
`~np.isnan(data)`; `loc`, `scale` and `observed` are the boolean-masked
tensors of lines 43-52 and `df = 4`; the result lists the Student-t factors
of the `reinterpreted_batch_ndims=1` product in mask order. -/
def studentT_terms (T C A : ℕ) (sqrt : ℝ → ℝ) (data : Idx T C A → Option ℝ)
    (new_cases : Idx T C A → ℝ) (sigma : Fin C → ℝ) : List StudentTTerm :=
  let mask : Idx T C A → Bool := fun i => (data i).isSome
  let sigmaB : Idx T C A → ℝ := fun i => sigma i.2.1
  let locs := boolean_mask new_cases mask
  let scales := boolean_mask (fun i => scaleEntry sqrt (sigmaB i) (new_cases i)) mask
  let obs := boolean_mask (fun i => (data i).getD 0) mask
  (locs.zip (scales.zip obs)).map fun p => ⟨4, p.1, p.2.1, p.2.2⟩

/-- Modelled from the spec: the file `covid19_npis/transformations.py`
defining the `SoftPlus` transform used for the `sigma` prior is not among
the extracted sources. The spec states that positivity of the Student-t
scale parameter is "guaranteed by the soft-plus transform"; the standard
soft-plus bijector maps an unconstrained real x to log(1 + exp x), so this
predicate says each per-country sigma is the soft-plus image of some
unconstrained value. -/
def IsSoftplusTransformed {C : ℕ} (sigma : Fin C → ℝ) : Prop :=
  ∃ u : Fin C → ℝ, ∀ c, sigma c = Real.log (1 + Real.exp (u c))

/-- Zipping three maps over one list is the map of the triple. -/
theorem map_zip_map_map {α β γ δ : Type} (f : α → β) (g : α → γ) (h : α → δ) :
    ∀ l : List α, (l.map f).zip ((l.map g).zip (l.map h)) =
      l.map fun i => (f i, g i, h i)
  | [] => rfl
  | x :: xs => by
      simp only [List.map_cons, List.zip_cons_cons, map_zip_map_map f g h xs]

/-- The Student-t factors are exactly one term per non-NaN index, with
location, scale and observed value all read off at that index. -/
theorem studentT_terms_eq (T C A : ℕ) (sqrt : ℝ → ℝ) (data : Idx T C A → Option ℝ)
    (new_cases : Idx T C A → ℝ) (sigma : Fin C → ℝ) :
    studentT_terms T C A sqrt data new_cases sigma =
      ((allIdx T C A).filter fun i => (data i).isSome).map
        (fun i => ⟨4, new_cases i, scaleEntry sqrt (sigma i.2.1) (new_cases i),
          (data i).getD 0⟩) := by
  simp only [studentT_terms, boolean_mask]
  rw [map_zip_map_map, List.map_map]
  rfl

/-- C1: the log-density built by `studentT_likelihood` includes exactly the
non-NaN entries of the observed data tensor: the Student-t factor list is
the map over the indices kept by the boolean mask `~np.isnan(data)`, each
non-NaN index contributing one factor whose location and scale are read at
that same index, and the number of factors is the number of non-NaN
entries, so NaN entries contribute nothing. -/
theorem studentT_likelihood_mask_exact (T C A : ℕ) (data : Idx T C A → Option ℝ)
    (new_cases : Idx T C A → ℝ) (sigma : Fin C → ℝ) :
    studentT_terms T C A Real.sqrt data new_cases sigma =
      ((allIdx T C A).filter fun i => (data i).isSome).map
        (fun i => ⟨4, new_cases i, scaleEntry Real.sqrt (sigma i.2.1) (new_cases i),
          (data i).getD 0⟩) ∧
    (studentT_terms T C A Real.sqrt data new_cases sigma).length =
      ((allIdx T C A).filter fun i => (data i).isSome).length := by
  refine ⟨studentT_terms_eq T C A Real.sqrt data new_cases sigma, ?_⟩
  rw [studentT_terms_eq, List.length_map]

/-! ### Concrete one-entry instances used as witnesses and counterexamples -/

/-- A 1×1×1 observed-data tensor whose single entry is 3 (not NaN). -/
def cexData : Idx 1 1 1 → Option ℝ := fun _ => some 3

/-- A 1×1×1 expected-cases tensor whose single entry is 4. -/
def cexCases : Idx 1 1 1 → ℝ := fun _ => 4

/-- A per-country sigma with the single value 1. -/
def cexSigma : Fin 1 → ℝ := fun _ => 1

theorem cexTerms :
    studentT_terms 1 1 1 Real.sqrt cexData cexCases cexSigma =
      [⟨4, 4, scaleEntry Real.sqrt 1 4, 3⟩] := rfl

/-- The scale the claim sentence asserts for each masked entry: the
per-country sigma multiplied by the square root of the expected count
(with no further offset). Stated from the spec wording, for comparison
with `scaleEntry` taken from the source. -/
def claimedScaleEntry (sqrt : ℝ → ℝ) (s E : ℝ) : ℝ := s * sqrt E

/-- C3 counterexample: at the one-entry instance with sigma 1 and expected
count 4, the scale actually built by `studentT_likelihood` is
1 * sqrt 4 + 1 = 3, not the claimed 1 * sqrt 4 = 2: likelihood.py line 47
computes `sigma * tf.sqrt(new_cases) + 1`, one more than the claim's
product. -/
theorem studentT_scale_plus_one_cex :
    (studentT_terms 1 1 1 Real.sqrt cexData cexCases cexSigma).map
        StudentTTerm.scale = [scaleEntry Real.sqrt 1 4] ∧
      scaleEntry Real.sqrt 1 4 ≠ claimedScaleEntry Real.sqrt 1 4 := by
  constructor
  · rw [cexTerms]
    rfl
  · have h : Real.sqrt 4 = 2 := by
      rw [show (4 : ℝ) = 2 ^ 2 by norm_num]
      exact Real.sqrt_sq (by norm_num)
    simp only [scaleEntry, claimedScaleEntry, h]
    norm_num

/-- C3 amended: for every masked observed entry, the likelihood factor
built by `studentT_likelihood` is a Student-t with exactly 4 degrees of
freedom, location equal to the expected count for that entry, and scale
equal to the learned per-country sigma (one value per country, constant
across time and age groups) multiplied by the square root of the expected
count, plus one. -/
theorem studentT_term_structure (T C A : ℕ) (data : Idx T C A → Option ℝ)
    (new_cases : Idx T C A → ℝ) (sigma : Fin C → ℝ) :
    ∀ t ∈ studentT_terms T C A Real.sqrt data new_cases sigma,
      t.df = 4 ∧ ∃ i : Idx T C A, (data i).isSome ∧ t.loc = new_cases i ∧
        t.scale = sigma i.2.1 * Real.sqrt (new_cases i) + 1 ∧
        t.observed = (data i).getD 0 := by
  intro t ht
  rw [studentT_terms_eq] at ht
  obtain ⟨i, hi, rfl⟩ := List.mem_map.mp ht
  have hmask := (List.mem_filter.mp hi).2
  exact ⟨rfl, i, by simpa using hmask, rfl, rfl, rfl⟩

/-- Witness for the amended C3 theorem at the concrete one-entry instance. -/
theorem studentT_term_structure_witness :
    (⟨4, 4, scaleEntry Real.sqrt 1 4, 3⟩ : StudentTTerm).df = 4 ∧
      ∃ i : Idx 1 1 1, (cexData i).isSome ∧
        (⟨4, 4, scaleEntry Real.sqrt 1 4, 3⟩ : StudentTTerm).loc = cexCases i ∧
        (⟨4, 4, scaleEntry Real.sqrt 1 4, 3⟩ : StudentTTerm).scale
          = cexSigma i.2.1 * Real.sqrt (cexCases i) + 1 ∧
        (⟨4, 4, scaleEntry Real.sqrt 1 4, 3⟩ : StudentTTerm).observed
          = (cexData i).getD 0 :=
  studentT_term_structure 1 1 1 cexData cexCases cexSigma
    ⟨4, 4, scaleEntry Real.sqrt 1 4, 3⟩
    (by rw [cexTerms]; exact List.mem_singleton.mpr rfl)

/-- C6: if the per-country sigma is produced by the soft-plus transform
then it is strictly positive in every country, and every entry of the
scale tensor passed to the Student-t distribution is strictly positive. -/
theorem studentT_scale_positive (T C A : ℕ) (data : Idx T C A → Option ℝ)
    (new_cases : Idx T C A → ℝ) (sigma : Fin C → ℝ)
    (hsigma : IsSoftplusTransformed sigma) :
    (∀ c, 0 < sigma c) ∧
      ∀ t ∈ studentT_terms T C A Real.sqrt data new_cases sigma, 0 < t.scale := by
  obtain ⟨u, hu⟩ := hsigma
  have hpos : ∀ c, 0 < sigma c := by
    intro c
    rw [hu c]
    have hexp := Real.exp_pos (u c)
    have h1 : (1 : ℝ) < 1 + Real.exp (u c) := by linarith
    exact Real.log_pos h1
  refine ⟨hpos, ?_⟩
  intro t ht
  rw [studentT_terms_eq] at ht
  obtain ⟨i, hi, rfl⟩ := List.mem_map.mp ht
  have h1 : 0 ≤ sigma i.2.1 * Real.sqrt (new_cases i) :=
    mul_nonneg (le_of_lt (hpos i.2.1)) (Real.sqrt_nonneg _)
  show 0 < scaleEntry Real.sqrt (sigma i.2.1) (new_cases i)
  unfold scaleEntry
  linarith

theorem cexTermsSoftplus :
    studentT_terms 1 1 1 Real.sqrt cexData cexCases
        (fun _ : Fin 1 => Real.log (1 + Real.exp 0)) =
      [⟨4, 4, scaleEntry Real.sqrt (Real.log (1 + Real.exp 0)) 4, 3⟩] := rfl

/-- Witness for the C6 theorem with the soft-plus image of the
unconstrained value 0 as the single-country sigma. -/
theorem studentT_scale_positive_witness :
    0 < scaleEntry Real.sqrt (Real.log (1 + Real.exp 0)) 4 :=
  (studentT_scale_positive 1 1 1 cexData cexCases
      (fun _ : Fin 1 => Real.log (1 + Real.exp 0))
      ⟨fun _ => 0, fun _ => rfl⟩).2
    ⟨4, 4, scaleEntry Real.sqrt (Real.log (1 + Real.exp 0)) 4, 3⟩
    (by rw [cexTermsSoftplus]; exact List.mem_singleton.mpr rfl)

/-! ## Clipping of the infection tensor (`model.py` lines 123-137) -/

/-- Embedding of `tf.clip_by_value(x, lo, hi)` = `min(max(x, lo), hi)`. -/
def clip_by_value (x lo hi : ℚ) : ℚ := min (max x lo) hi

/-- Lower clipping bound of model.py line 129 (`1e-7`). -/
def new_E_t_clip_lo : ℚ := 1 / 10 ^ 7

/-- Upper clipping bound of model.py line 129 (`1e9`). -/
def new_E_t_clip_hi : ℚ := 10 ^ 9

/-- model.py lines 123-136: the infection tensor after
`tf.clip_by_value(new_E_t, 1e-7, 1e9)`, which is the value recorded in the
trace under the name "new_E_t" and fed to the observation sub-models.
`raw` is the output of `InfectionModel`. -/
def main_model_new_E_t {T C A : ℕ} (raw : Idx T C A → ℚ) : Idx T C A → ℚ :=
  fun i => clip_by_value (raw i) new_E_t_clip_lo new_E_t_clip_hi

/-- C4: for every InfectionModel output, every element of the clipped
infection tensor `new_E_t` lies in the closed interval [1e-7, 1e9], and in
particular is strictly positive. -/
theorem new_E_t_clipped_bounds (T C A : ℕ) (raw : Idx T C A → ℚ) (i : Idx T C A) :
    new_E_t_clip_lo ≤ main_model_new_E_t raw i ∧
      main_model_new_E_t raw i ≤ new_E_t_clip_hi ∧
      0 < main_model_new_E_t raw i := by
  have hlohi : new_E_t_clip_lo ≤ new_E_t_clip_hi := by
    norm_num [new_E_t_clip_lo, new_E_t_clip_hi]
  have hlo : new_E_t_clip_lo ≤ main_model_new_E_t raw i :=
    le_min (le_max_right _ _) hlohi
  have hhi : main_model_new_E_t raw i ≤ new_E_t_clip_hi := min_le_right _ _
  have hpos : (0 : ℚ) < new_E_t_clip_lo := by norm_num [new_E_t_clip_lo]
  exact ⟨hlo, hhi, lt_of_lt_of_le hpos hlo⟩

/-! ## Contact matrix construction (`model.py` lines 60-79) -/

/-- model.py line 74: `C = tf.einsum("...an,...bn->...ab", C, C)`, building
the correlation matrix L Lᵀ from the Cholesky factor L (per country; the
country and batch axes act pointwise and are elided). -/
def buildC {n : ℕ} (L : Fin n → Fin n → ℚ) : Fin n → Fin n → ℚ :=
  fun i j => ∑ k, L i k * L j k

/-- The order-1 norm along the last axis used by
`tf.linalg.normalize(C, ord=1, axis=-1)`: the sum of absolute values of a
row. -/
def rowAbsSum {n : ℕ} (M : Fin n → Fin n → ℚ) (i : Fin n) : ℚ := ∑ j, |M i j|

/-- model.py line 78: `tf.linalg.normalize(C, ord=1, axis=-1)` divides each
row of C by its order-1 norm. -/
def normalizeRows {n : ℕ} (M : Fin n → Fin n → ℚ) : Fin n → Fin n → ℚ :=
  fun i j => M i j / rowAbsSum M i

/-- A valid correlation-Cholesky factor (lower triangular, unit-norm rows,
positive diagonal) with a negative correlation: rows (1, 0) and
(-3/5, 4/5). -/
def cexCholesky : Fin 2 → Fin 2 → ℚ :=
  fun i j =>
    if i = 0 then (if j = 0 then 1 else 0) else if j = 0 then -3 / 5 else 4 / 5

/-- C5 counterexample: for the sampled Cholesky factor `cexCholesky`
(whose rows have unit norm, first conjunct, so C = L Lᵀ is a correlation
matrix), the first row of the ord-1-normalized C sums to 1/4, not 1: the
normalization divides by the sum of absolute values, so rows containing
negative correlations do not sum to 1. -/
theorem contact_row_sum_cex :
    (∀ i, ∑ k, cexCholesky i k * cexCholesky i k = 1) ∧
      ∑ j, normalizeRows (buildC cexCholesky) 0 j ≠ 1 := by
  constructor
  · intro i
    fin_cases i <;> norm_num [cexCholesky, Fin.sum_univ_two]
  · norm_num [normalizeRows, buildC, rowAbsSum, cexCholesky, Fin.sum_univ_two,
      abs_of_nonneg, abs_of_nonpos]

/-- C5 amended: for every sampled Cholesky factor with unit-norm rows, each
row of the normalized contact matrix C has entries whose absolute values
sum to 1 (the row sums to 1 in absolute value; the signed row sum equals 1
only when the row is nonnegative). -/
theorem contact_rows_l1_normalized {n : ℕ} (L : Fin n → Fin n → ℚ)
    (hL : ∀ i, ∑ k, L i k * L i k = 1) (i : Fin n) :
    ∑ j, |normalizeRows (buildC L) i j| = 1 := by
  have hdiag : buildC L i i = 1 := hL i
  have habs : |buildC L i i| = 1 := by rw [hdiag]; norm_num
  have hge : (1 : ℚ) ≤ rowAbsSum (buildC L) i := by
    have h1 : |buildC L i i| ≤ ∑ j, |buildC L i j| :=
      Finset.single_le_sum (fun j _ => abs_nonneg (buildC L i j)) (Finset.mem_univ i)
    calc (1 : ℚ) = |buildC L i i| := habs.symm
      _ ≤ ∑ j, |buildC L i j| := h1
      _ = rowAbsSum (buildC L) i := rfl
  have hr : 0 < rowAbsSum (buildC L) i := lt_of_lt_of_le one_pos hge
  calc
    ∑ j, |normalizeRows (buildC L) i j|
        = ∑ j, |buildC L i j| / rowAbsSum (buildC L) i := by
          refine Finset.sum_congr rfl fun j _ => ?_
          simp only [normalizeRows]
          rw [abs_div, abs_of_pos hr]
    _ = (∑ j, |buildC L i j|) / rowAbsSum (buildC L) i := by
          rw [Finset.sum_div]
    _ = rowAbsSum (buildC L) i / rowAbsSum (buildC L) i := rfl
    _ = 1 := div_self (ne_of_gt hr)

/-- Witness for the amended C5 theorem at the concrete Cholesky factor. -/
theorem contact_rows_l1_normalized_witness :
    ∑ j, |normalizeRows (buildC cexCholesky) 0 j| = 1 :=
  contact_rows_l1_normalized cexCholesky
    (by intro i; fin_cases i <;> norm_num [cexCholesky, Fin.sum_univ_two]) 0

/-! ## The likelihood call in `main_model` (`model.py` lines 203-211) -/

/-- Formal parameters of `def studentT_likelihood(modelParams, new_cases)`
(likelihood.py line 14); none of them has a default value. -/
def studentT_likelihood_params : List String := ["modelParams", "new_cases"]

/-- Positional arguments of the call
`studentT_likelihood(modelParams, positive_tests, total_tests, deaths_delayed)`
in `main_model` (model.py lines 208-210). -/
def main_model_likelihood_args : List String :=
  ["modelParams", "positive_tests", "total_tests", "deaths_delayed"]

/-- Python call semantics: a purely positional call binds exactly when the
number of arguments is between the number of non-default parameters and the
total number of parameters; otherwise the call raises TypeError before the
function body (even a generator body) runs. -/
def python_call_binds (numParams numDefaults numArgs : ℕ) : Bool :=
  decide (numParams - numDefaults ≤ numArgs) && decide (numArgs ≤ numParams)

/-- C2 evaluation: `main_model` passes four positional arguments (the
modelParams and all three case tensors) to `studentT_likelihood`, which
declares exactly two parameters with no defaults, so the call does not
bind: it raises TypeError instead of returning a log-density combining the
three observation channels. -/
theorem main_model_likelihood_call_arity_bug :
    main_model_likelihood_args.length = 4 ∧
      studentT_likelihood_params.length = 2 ∧
      python_call_binds studentT_likelihood_params.length 0
        main_model_likelihood_args.length = false := by decide

/-- Names of the random variables and deterministics yielded directly by
`main_model` in source order (model.py lines 37-166): the commented-out
weekly-modulation block (lines 176-201) contributes no trace variables. -/
def main_model_trace_names : List String :=
  ["R_0", "R_t", "C_cholesky", "C", "h_0_t", "new_E_t", "total_tests",
   "positive_tests", "IFR", "delay_deaths", "cases_delayed_deaths"]

/-- model.py: the weekly-modulation calls of lines 176-201 are commented
out, so no modulation step is live in `main_model`. -/
def main_model_weekly_modulation_enabled : Bool := false

/-- model.py lines 143-210: from the outputs of
`number_of_tests.generate_testing` and `deaths.calc_delayed_deaths` to the
case tensors passed positionally to `studentT_likelihood`; when the
weekly-modulation flag were set the modulation `wm` would be applied to
each channel, as in the commented-out block. -/
def main_model_likelihood_case_args {α : Type} (wm : α → α)
    (total_tests positive_tests deaths_delayed : α) : List α :=
  let total_tests :=
    if main_model_weekly_modulation_enabled then wm total_tests else total_tests
  let positive_tests :=
    if main_model_weekly_modulation_enabled then wm positive_tests else positive_tests
  let deaths_delayed :=
    if main_model_weekly_modulation_enabled then wm deaths_delayed else deaths_delayed
  [positive_tests, total_tests, deaths_delayed]

/-- C7: weekly modulation is disabled in the current configuration of
`main_model`: for every modulation transform `wm`, the case tensors handed
to the likelihood call are exactly the tensors returned by
`generate_testing` and `calc_delayed_deaths`, untransformed, and none of
the modulated-variable names appears in `main_model`'s trace. -/
theorem main_model_no_weekly_modulation {α : Type} (wm : α → α)
    (total_tests positive_tests deaths_delayed : α) :
    main_model_likelihood_case_args wm total_tests positive_tests deaths_delayed
        = [positive_tests, total_tests, deaths_delayed] ∧
      "tests_total_modulated" ∉ main_model_trace_names ∧
      "tests_positive_modulated" ∉ main_model_trace_names ∧
      "cases_deaths_modulated" ∉ main_model_trace_names :=
  ⟨rfl, by decide, by decide, by decide⟩

/-! ## Weekly modulation (`weekly_modulation.py`) -/

/-- `step_modulation` (weekly_modulation.py lines 73-85): 1 on days whose
ISO weekday lies in `weekend_days`, 0 elsewhere; day `i` counts from the
simulation begin, whose ISO weekday is `w0` (between 1 and 7). -/
def step_modulation (w0 : ℕ) (weekend_days : List ℕ) (i : ℕ) : ℚ :=
  if (w0 - 1 + i) % 7 + 1 ∈ weekend_days then 1 else 0

/-- weekly_modulation.py lines 166-168: two successive conditional
assignments to `modulation`; the second one (the abs_sine line) overwrites
the first, so for any type other than "abs_sine" the final modulation is
the literal 0 and the step branch's result is discarded. -/
def selected_modulation (wtype : String) (stepMod absSineMod : ℕ → ℚ) (i : ℕ) : ℚ :=
  let _modulation := if wtype = "step" then stepMod i else 0
  let modulation := if wtype = "abs_sine" then absSineMod i else 0
  modulation

/-- weekly_modulation.py lines 166-177 with the undefined alias `tt` read
as the tensor library it stands for (`tt.abs_` as absolute value): the
returned cases are the input cases times `|1 - weekend_factor * modulation|`. -/
def week_modulation_cases (wtype : String) (w0 : ℕ) (weekend_days : List ℕ)
    (weekend_factor : ℚ) (absSineMod : ℕ → ℚ) (cases : ℕ → ℚ) (i : ℕ) : ℚ :=
  cases i *
    |1 - weekend_factor *
      selected_modulation wtype (step_modulation w0 weekend_days) absSineMod i|

/-- C8 evaluation: with `week_modulation_type = "step"` the function
returns the input cases unchanged on every day — weekend days included —
for every weekend factor, because line 168 overwrites the step modulation
with 0; and on a concrete weekend day (simulation starting on a Monday,
day 5 is a Saturday with ISO weekday 6 in the default weekend (6,7)) the
step modulation itself is 1 and the multiplication the claim asks for,
`|1 - weekend_factor|` with factor 1/2, is 1/2, not the 1 the code applies. -/
theorem week_modulation_step_ignored :
    (∀ (w0 : ℕ) (weekend_days : List ℕ) (f : ℚ) (absSineMod cases : ℕ → ℚ) (i : ℕ),
        week_modulation_cases "step" w0 weekend_days f absSineMod cases i = cases i) ∧
      step_modulation 1 [6, 7] 5 = 1 ∧
      |1 - (1 / 2 : ℚ) * step_modulation 1 [6, 7] 5| = 1 / 2 := by
  refine ⟨?_, by decide, ?_⟩
  · intro w0 weekend_days f absSineMod cases i
    simp [week_modulation_cases, selected_modulation]
  · have hs : step_modulation 1 [6, 7] 5 = 1 := by decide
    rw [hs, show |1 - (1 / 2 : ℚ) * 1| = |(1 / 2 : ℚ)| by norm_num]
    exact abs_of_nonneg (by norm_num)

/-- Names bound in the module scope of weekly_modulation.py (imports of
lines 5-24, including the star import of the public names of model.py) and
in the scope of `week_modulation` (its parameters of lines 27-38 and the
locals bound on lines 73-138 before the branch on `model.is_hierarchical`). -/
def week_modulation_env : List String :=
  ["tf", "tfp", "logging", "pm", "np", "log", "ut", "transformations",
   "Normal", "LogNormal", "Deterministic", "HalfNormal", "Gamma", "VonMises",
   "covid19_npis", "LKJCholesky", "HalfCauchy",
   "convolution_with_varying_kernel", "gamma", "main_model", "week_modulation",
   "name", "modelParams", "cases", "week_modulation_type",
   "name_weekend_factor", "name_offset_modulation", "pr_mean_weekend_factor",
   "pr_sigma_weekend_factor", "weekend_days", "model",
   "step_modulation", "abs_sine_modulation", "delta_d_i", "weight",
   "shape_modulation"]

/-- Global or local names read by the body of `week_modulation`, in
execution order up to and including the first reference that the weekend
factor construction makes to the tensor alias `tt` (line 144 on the
non-hierarchical branch, line 155 inside the hierarchical call); the
Boolean selects the `model.is_hierarchical` branch of lines 141-164. Both
branches reach a `tt.log(pr_mean_weekend_factor)` argument before any
modulation is computed or any value returned. -/
def week_modulation_refs (hier : Bool) : List String :=
  ["log", "Normal", "HalfNormal", "transformations", "model", "model"] ++
    (if hier then ["ut", "name_weekend_factor", "tt"]
     else ["pm", "name_weekend_factor", "tt"])

/-- Python name resolution: read the references in order and return the
first name bound in no enclosing scope (the name whose read raises
NameError), or `none` when every reference resolves. -/
def python_resolve (env : List String) : List String → Option String
  | [] => none
  | n :: rest => if n ∈ env then python_resolve env rest else some n

/-- C9: on both branches of `model.is_hierarchical`, executing
`week_modulation` (with the default `week_modulation_type="abs_sine"` or
any other) resolves names up to the weekend-factor construction and there
hits the tensor alias `tt`, which no import or assignment in
weekly_modulation.py binds, so the call raises NameError before returning
any modulated tensor; the trace-variable parameter `name_cases` read on
line 179 is likewise unbound (the signature declares `name` instead). -/
theorem week_modulation_abs_sine_name_error :
    (∀ hier : Bool,
        python_resolve week_modulation_env (week_modulation_refs hier)
          = some "tt") ∧
      "tt" ∉ week_modulation_env ∧ "name_cases" ∉ week_modulation_env := by
  decide

/-! ## `ModelParams` distribution configs (`modelParams.py`) -/

/-- One distribution-config dict of `ModelParams.distributions`: the fields
written by `__get_default_dist_config` (the "new_cases" entry has no "math"
key, embedded as `none`). -/
structure DistConfig where
  name : String
  long_name : String
  shape : List ℕ
  shape_label : List String
  math : Option String
deriving DecidableEq

/-- `ModelParams.__get_default_dist_config` (modelParams.py lines 52-107):
the default distribution dictionary in insertion order, as a key/config
association list (Python dicts preserve insertion order). -/
def default_dist_config (num_countries num_age_groups num_days : ℕ) :
    List (String × DistConfig) :=
  [("I_0", ⟨"I_0", "Initial infectious people", [num_countries, num_age_groups],
      ["country", "age_group"], some "I_0"⟩),
   ("R", ⟨"R", "Reproduction number", [num_countries, num_age_groups],
      ["country", "age_group"], some "R"⟩),
   ("C", ⟨"C", "Contact matrix", [num_countries, num_age_groups, num_age_groups],
      ["country", "age_group_i", "age_group_j"], some "C"⟩),
   ("sigma", ⟨"sigma", "likelihood scale", [1], ["likelihood scale"],
      some "\\sigma"⟩),
   ("g_mu", ⟨"g_mu", "long_name g_mu", [1], ["g_mu"], some "g_\x7b\\mu\x7d"⟩),
   ("g_theta", ⟨"g_theta", "long_name g_theta", [1], ["g_theta"],
      some "g_\x7b\\theta\x7d"⟩),
   ("new_cases", ⟨"new_cases", "Daily new infectious cases",
      [num_days, num_countries, num_age_groups],
      ["time", "country", "age_group"], none⟩)]

/-- Python dict lookup `self.distributions[this_dist]` on the association
list: the unique entry with the given key (keys of a dict are distinct). -/
def dict_get (dists : List (String × DistConfig)) (key : String) :
    Option DistConfig :=
  (dists.find? fun p => p.1 == key).map Prod.snd

/-- The loop of `get_distribution_by_name` (modelParams.py lines 47-49):
`this_dist` is overwritten by every entry whose "name" field equals the
target, so after the loop it holds the key of the last match, or is still
unbound (`none`) when nothing matched. -/
def this_dist_loop (dists : List (String × DistConfig)) (target : String) :
    Option String :=
  dists.foldl (fun acc p => if p.2.name == target then some p.1 else acc) none

/-- `ModelParams.get_distribution_by_name` (modelParams.py lines 46-50):
run the loop, then evaluate `self.distributions[this_dist]`; when the loop
never bound `this_dist`, that read raises UnboundLocalError. -/
def get_distribution_by_name (dists : List (String × DistConfig))
    (target : String) : Except String DistConfig :=
  match this_dist_loop dists target with
  | none => Except.error "UnboundLocalError"
  | some k =>
    match dict_get dists k with
    | some v => Except.ok v
    | none => Except.error "KeyError"

/-- First-of-two choice on options. -/
def oget {α : Type} (a b : Option α) : Option α :=
  match a with
  | some x => some x
  | none => b

theorem oget_none_right {α : Type} (a : Option α) : oget a none = a := by
  cases a <;> rfl

theorem oget_assoc {α : Type} (a b c : Option α) :
    oget (oget a b) c = oget a (oget b c) := by
  cases a <;> rfl

theorem find?_append {α : Type} (p : α → Bool) :
    ∀ l₁ l₂ : List α, (l₁ ++ l₂).find? p = oget (l₁.find? p) (l₂.find? p)
  | [], l₂ => rfl
  | x :: xs, l₂ => by
      by_cases h : p x = true
      · rw [List.cons_append, List.find?_cons_of_pos _ h,
          List.find?_cons_of_pos _ h]
        rfl
      · rw [List.cons_append, List.find?_cons_of_neg _ h,
          List.find?_cons_of_neg _ h, find?_append p xs l₂]

/-- A fold that overwrites its accumulator at every match computes the last
match: it equals the first match of the reversed list. -/
theorem foldl_lastmatch {α : Type} (p : α → Bool) :
    ∀ (l : List α) (acc : Option α),
      l.foldl (fun a x => if p x then some x else a) acc =
        oget (l.reverse.find? p) acc
  | [], acc => rfl
  | x :: xs, acc => by
      rw [List.foldl_cons, foldl_lastmatch p xs, List.reverse_cons,
        find?_append, oget_assoc]
      congr 1
      by_cases h : p x = true
      · rw [List.find?_cons_of_pos _ h, h]
        rfl
      · rw [List.find?_cons_of_neg _ h]
        simp only [h]
        rfl

theorem this_dist_loop_eq (dists : List (String × DistConfig)) (target : String) :
    this_dist_loop dists target =
      (dists.reverse.find? fun p => p.2.name == target).map Prod.fst := by
  have h : ∀ (l : List (String × DistConfig)) (acc : Option (String × DistConfig)),
      l.foldl (fun acc p => if p.2.name == target then some p.1 else acc)
          (acc.map Prod.fst) =
        (l.foldl (fun a p => if p.2.name == target then some p else a) acc).map
          Prod.fst := by
    intro l
    induction l with
    | nil => intro acc; rfl
    | cons x xs ih =>
        intro acc
        rw [List.foldl_cons, List.foldl_cons]
        have hx : (if x.2.name == target then some x.1 else acc.map Prod.fst) =
            (if x.2.name == target then some x else acc).map Prod.fst := by
          by_cases h : x.2.name == target <;> simp [h]
        rw [hx, ih]
  calc
    this_dist_loop dists target
        = (dists.foldl (fun a p => if p.2.name == target then some p else a)
            none).map Prod.fst := h dists none
    _ = (oget (dists.reverse.find? fun p => p.2.name == target) none).map
          Prod.fst := by rw [foldl_lastmatch]
    _ = (dists.reverse.find? fun p => p.2.name == target).map Prod.fst := by
          rw [oget_none_right]

theorem dict_get_mem (dists : List (String × DistConfig))
    (e : String × DistConfig) (hkeys : (dists.map Prod.fst).Nodup)
    (he : e ∈ dists) : dict_get dists e.1 = some e.2 := by
  induction dists with
  | nil => cases he
  | cons x xs ih =>
      rw [List.map_cons, List.nodup_cons] at hkeys
      cases List.mem_cons.mp he with
      | inl h =>
          subst h
          unfold dict_get
          rw [List.find?_cons_of_pos _ (by simp)]
          rfl
      | inr h =>
          have hne : ¬((fun p : String × DistConfig => p.1 == e.1) x = true) := by
            intro heq
            exact hkeys.1 (beq_iff_eq.mp heq ▸ List.mem_map_of_mem Prod.fst h)
          have hfind : List.find? (fun p : String × DistConfig => p.1 == e.1)
              (x :: xs) = List.find? (fun p => p.1 == e.1) xs :=
            List.find?_cons_of_neg _ hne
          unfold dict_get
          rw [hfind]
          exact ih hkeys.2 h

/-- C10: with distinct dict keys (as Python guarantees), when at least one
entry's "name" field equals the target, `get_distribution_by_name` returns
the config of the last such entry (the first match of the reversed list);
when no entry's "name" field equals the target it fails by reading the
never-bound loop variable (UnboundLocalError) instead of returning a value. -/
theorem get_distribution_by_name_last_match (dists : List (String × DistConfig))
    (target : String) (hkeys : (dists.map Prod.fst).Nodup) :
    (∀ e, dists.reverse.find? (fun p => p.2.name == target) = some e →
        get_distribution_by_name dists target = Except.ok e.2) ∧
      (dists.reverse.find? (fun p => p.2.name == target) = none →
        get_distribution_by_name dists target = Except.error "UnboundLocalError") := by
  constructor
  · intro e he
    have h1 : this_dist_loop dists target = some e.1 := by
      rw [this_dist_loop_eq, he]
      rfl
    have hmem : e ∈ dists :=
      List.mem_reverse.mp (List.mem_of_find?_eq_some he)
    simp only [get_distribution_by_name, h1, dict_get_mem dists e hkeys hmem]
  · intro he
    have h1 : this_dist_loop dists target = none := by
      rw [this_dist_loop_eq, he]
      rfl
    simp only [get_distribution_by_name, h1]

/-- A config dictionary with two entries whose "name" fields coincide. -/
def wit_dists : List (String × DistConfig) :=
  [("a", ⟨"x", "first", [], [], none⟩), ("b", ⟨"x", "second", [], [], none⟩)]

/-- Witness for the C10 theorem: on `wit_dists` the lookup of "x" returns
the second (last-matching) entry's config. -/
theorem get_distribution_by_name_last_match_witness :
    get_distribution_by_name wit_dists "x" =
      Except.ok ⟨"x", "second", [], [], none⟩ :=
  (get_distribution_by_name_last_match wit_dists "x" (by decide)).1
    ("b", ⟨"x", "second", [], [], none⟩) (by decide)

end Covid19Npis
